import Mathlib

/-!
# Raymarcher: camera, input capture and frame clock of `src/Main.cpp`

A shallow embedding of the camera/input/timing core of `Main.cpp`.

* `float`/`double` values are idealised as elements of a linearly ordered field `α`
  (instantiated at `ℚ` for evaluation and at `ℝ` where trigonometry is needed); rounding,
  infinities and NaN are outside the model.
* `unsigned int intervalFrameCount` is a natural number reduced modulo `2 ^ 32`.
* The file-scope globals of `Main.cpp` and the part of the GLFW window state that
  `ProcessInput` reads or writes are the fields of `State`.
* The external numeric routines (`cos`, `sin`, `sqrt` and the constant π behind
  `glm::radians`) are the fields of `Libm`; `glm::cross`, `glm::dot`, `glm::normalize`
  and `glm::radians` are written out as GLM defines them.
-/

namespace Raymarcher

/-! ## Vectors (`glm::vec3`) -/

/-- A `glm::vec3`. -/
structure Vec3 (α : Type) where
  x : α
  y : α
  z : α
deriving DecidableEq, Repr

namespace Vec3

variable {α : Type}

/-- Componentwise sum, `a + b` on `glm::vec3`. -/
def add [Add α] (a b : Vec3 α) : Vec3 α := ⟨a.x + b.x, a.y + b.y, a.z + b.z⟩

/-- Componentwise difference, `a - b` on `glm::vec3`. -/
def sub [Sub α] (a b : Vec3 α) : Vec3 α := ⟨a.x - b.x, a.y - b.y, a.z - b.z⟩

/-- Vector times scalar, `v * s` on `glm::vec3`. -/
def scale [Mul α] (v : Vec3 α) (s : α) : Vec3 α := ⟨v.x * s, v.y * s, v.z * s⟩

/-- The dot product `glm::dot`. -/
def dot [Add α] [Mul α] (a b : Vec3 α) : α := a.x * b.x + a.y * b.y + a.z * b.z

/-- The cross product `glm::cross`. -/
def cross [Sub α] [Mul α] (a b : Vec3 α) : Vec3 α :=
  ⟨a.y * b.z - b.y * a.z, a.z * b.x - b.z * a.x, a.x * b.y - b.x * a.y⟩

end Vec3

/-! ## External numeric routines -/

/-- The numeric routines `Main.cpp` takes from the C++ and GLM libraries. -/
structure Libm (α : Type) where
  cos : α → α
  sin : α → α
  sqrt : α → α
  pi : α

/-- The routines over the real numbers. -/
noncomputable def realLibm : Libm ℝ := ⟨Real.cos, Real.sin, Real.sqrt, Real.pi⟩

section Defs

variable {α : Type} [LinearOrderedField α]

/-- Degrees to radians, `glm::radians`. -/
def radians (M : Libm α) (degrees : α) : α := degrees * (M.pi / 180)

/-- Euclidean length, `glm::length`: `sqrt(dot(v, v))`. -/
def length (M : Libm α) (v : Vec3 α) : α := M.sqrt (Vec3.dot v v)

/-- Unit vector of `v`, `glm::normalize`: `v * inversesqrt(dot(v, v))`. -/
def normalize (M : Libm α) (v : Vec3 α) : Vec3 α := v.scale (1 / M.sqrt (Vec3.dot v v))

/-! ## Program state -/

/-- What `glfwGetKey` / `glfwGetMouseButton` return. -/
inductive Action where
  | release
  | press
deriving DecidableEq, Repr

/-- The values of the `GLFW_CURSOR` input mode that the program sets. -/
inductive CursorMode where
  | normal
  | disabled
deriving DecidableEq, Repr

/-- The part of the GLFW window that `ProcessInput` reads and writes. -/
structure Window (α : Type) where
  keyEscape : Action
  keyW : Action
  keyS : Action
  keyA : Action
  keyD : Action
  keySpace : Action
  keyLeftControl : Action
  mouseButtonLeft : Action
  cursorX : α
  cursorY : α
  cursorMode : CursorMode
  shouldClose : Bool
deriving DecidableEq, Repr

/-- The file-scope camera globals of `Main.cpp` together with the window. -/
structure State (α : Type) where
  cameraPosition : Vec3 α
  cameraForward : Vec3 α
  cameraRight : Vec3 α
  cameraUp : Vec3 α
  cameraFOV : α
  cameraYaw : α
  cameraPitch : α
  cameraSpeed : α
  cameraSensitivity : α
  firstClick : Bool
  savedMouseX : α
  savedMouseY : α
  window : Window α
deriving DecidableEq, Repr

/-- A window on which nothing is pressed, with a free cursor at `(cx, cy)`. -/
def idleWindow (cx cy : α) : Window α :=
  { keyEscape := .release, keyW := .release, keyS := .release, keyA := .release,
    keyD := .release, keySpace := .release, keyLeftControl := .release,
    mouseButtonLeft := .release, cursorX := cx, cursorY := cy,
    cursorMode := .normal, shouldClose := false }

/-- The globals as initialised at program start (`Main.cpp` lines 18-30); the two
`savedMouse` doubles have static storage and start at zero. -/
def initialState (w : Window α) : State α :=
  { cameraPosition := ⟨0, 2, -10⟩
    cameraForward := ⟨0, 0, 1⟩
    cameraRight := ⟨1, 0, 0⟩
    cameraUp := ⟨0, 1, 0⟩
    cameraFOV := 90
    cameraYaw := 90
    cameraPitch := 0
    cameraSpeed := 10
    cameraSensitivity := 10
    firstClick := true
    savedMouseX := 0
    savedMouseY := 0
    window := w }

/-! ## `ScrollCallback` -/

/-- The function `ScrollCallback` (`Main.cpp` lines 370-383). -/
def ScrollCallback (s : State α) (_xoffset yoffset : α) : State α :=
  let newSpeed := s.cameraSpeed + yoffset
  if newSpeed < 1 / 10 then
    { s with cameraSpeed := 1 / 10 }
  else if newSpeed > 10 then
    { s with cameraSpeed := 10 }
  else
    s

/-! ## `ProcessInput` -/

/-- Lines 259-262: the escape key asks the window to close. -/
def keyEscapeStep (s : State α) : State α :=
  if s.window.keyEscape = .press then
    { s with window := { s.window with shouldClose := true } }
  else s

/-- Lines 264-267: `W` adds `cameraForward * cameraSpeed * deltaTime`. -/
def keyWStep (s : State α) (deltaTime : α) : State α :=
  if s.window.keyW = .press then
    { s with cameraPosition :=
        s.cameraPosition.add ((s.cameraForward.scale s.cameraSpeed).scale deltaTime) }
  else s

/-- Lines 269-272: `S` subtracts `cameraForward * cameraSpeed * deltaTime`. -/
def keySStep (s : State α) (deltaTime : α) : State α :=
  if s.window.keyS = .press then
    { s with cameraPosition :=
        s.cameraPosition.sub ((s.cameraForward.scale s.cameraSpeed).scale deltaTime) }
  else s

/-- Lines 274-277: `A` subtracts `cameraRight * cameraSpeed * deltaTime`. -/
def keyAStep (s : State α) (deltaTime : α) : State α :=
  if s.window.keyA = .press then
    { s with cameraPosition :=
        s.cameraPosition.sub ((s.cameraRight.scale s.cameraSpeed).scale deltaTime) }
  else s

/-- Lines 279-282: `D` adds `cameraRight * cameraSpeed * deltaTime`. -/
def keyDStep (s : State α) (deltaTime : α) : State α :=
  if s.window.keyD = .press then
    { s with cameraPosition :=
        s.cameraPosition.add ((s.cameraRight.scale s.cameraSpeed).scale deltaTime) }
  else s

/-- Lines 284-287: space adds `cameraUp * cameraSpeed * deltaTime`. -/
def keySpaceStep (s : State α) (deltaTime : α) : State α :=
  if s.window.keySpace = .press then
    { s with cameraPosition :=
        s.cameraPosition.add ((s.cameraUp.scale s.cameraSpeed).scale deltaTime) }
  else s

/-- Lines 289-292: left control subtracts `cameraUp * cameraSpeed * deltaTime`. -/
def keyLeftControlStep (s : State α) (deltaTime : α) : State α :=
  if s.window.keyLeftControl = .press then
    { s with cameraPosition :=
        s.cameraPosition.sub ((s.cameraUp.scale s.cameraSpeed).scale deltaTime) }
  else s

/-- Lines 259-292 of `ProcessInput`: the escape key and the six movement keys, tested one
after the other, each on the state the previous statement left. -/
def processKeys (s : State α) (deltaTime : α) : State α :=
  let s := keyEscapeStep s
  let s := keyWStep s deltaTime
  let s := keySStep s deltaTime
  let s := keyAStep s deltaTime
  let s := keyDStep s deltaTime
  let s := keySpaceStep s deltaTime
  let s := keyLeftControlStep s deltaTime
  s

/-- The state with the two things the key handling writes blanked out: the position and
the close flag of the window. -/
def keysFrame (s : State α) : State α :=
  { s with cameraPosition := ⟨0, 0, 0⟩, window := { s.window with shouldClose := false } }

/-- The six movement keys in the order `ProcessInput` tests them:
`W`, `S`, `A`, `D`, space, left control. -/
def heldKeys (w : Window α) : List Action :=
  [w.keyW, w.keyS, w.keyA, w.keyD, w.keySpace, w.keyLeftControl]

/-- Lines 316-323: the two successive bound tests on `cameraPitch`. -/
def clampPitch (pitch : α) : α :=
  let pitch := if pitch > 89 then 89 else pitch
  let pitch := if pitch < -89 then -89 else pitch
  pitch

/-- Lines 326-330: the forward vector from yaw and pitch in degrees. -/
def newForward (M : Libm α) (yaw pitch : α) : Vec3 α :=
  normalize M
    ⟨M.cos (radians M yaw) * M.cos (radians M pitch),
     M.sin (radians M pitch),
     M.sin (radians M yaw) * M.cos (radians M pitch)⟩

/-- Line 333: the right vector from the forward vector. -/
def newRight (M : Libm α) (forward : Vec3 α) : Vec3 α :=
  normalize M (Vec3.cross forward ⟨0, 1, 0⟩)

/-- Line 334: the up vector from the right and forward vectors. -/
def newUp (M : Libm α) (right forward : Vec3 α) : Vec3 α :=
  normalize M (Vec3.cross right forward)

/-- Lines 305-337: the look step taken while the button is held after the first click. -/
def lookStep (M : Libm α) (s : State α) (deltaTime : α) : State α :=
  let mouseX := s.window.cursorX
  let mouseY := s.window.cursorY
  let xoffset := (mouseX - s.savedMouseX) * s.cameraSensitivity * deltaTime
  let yoffset := (s.savedMouseY - mouseY) * s.cameraSensitivity * deltaTime
  let yaw := s.cameraYaw + xoffset
  let pitch := clampPitch (s.cameraPitch + yoffset)
  let forward := newForward M yaw pitch
  let right := newRight M forward
  let up := newUp M right forward
  { s with
    cameraYaw := yaw
    cameraPitch := pitch
    cameraForward := forward
    cameraRight := right
    cameraUp := up
    window := { s.window with cursorX := s.savedMouseX, cursorY := s.savedMouseY } }

/-- Lines 294-348 of `ProcessInput`: the left mouse button. -/
def processMouse (M : Libm α) (s : State α) (deltaTime : α) : State α :=
  if s.window.mouseButtonLeft = .press then
    if s.firstClick then
      { s with
        savedMouseX := s.window.cursorX
        savedMouseY := s.window.cursorY
        firstClick := false
        window := { s.window with cursorMode := .disabled } }
    else
      lookStep M s deltaTime
  else if s.window.mouseButtonLeft = .release then
    let s := { s with window := { s.window with cursorMode := .normal } }
    if !s.firstClick then { s with firstClick := true } else s
  else
    s

/-- The function `ProcessInput` (`Main.cpp` lines 256-349). -/
def ProcessInput (M : Libm α) (s : State α) (deltaTime : α) : State α :=
  processMouse M (processKeys s deltaTime) deltaTime

/-- The start-up state once a first click has anchored the cursor at `(ax, ay)`, with the
button still held and the window reporting the cursor at `(mx, my)`. -/
def heldState (ax ay mx my : α) : State α :=
  { initialState
      { idleWindow mx my with mouseButtonLeft := .press, cursorMode := .disabled } with
    firstClick := false
    savedMouseX := ax
    savedMouseY := ay }

/-- The start-up state moved to position `(1, 2, 3)` and given the vectors `(2, 3, 5)`,
`(7, 11, 13)` and `(17, 19, 23)` as forward, right and up, with the window `w`: a state on
which every component of every movement is different. -/
def skewState (w : Window α) : State α :=
  { initialState w with
    cameraPosition := ⟨1, 2, 3⟩
    cameraForward := ⟨2, 3, 5⟩
    cameraRight := ⟨7, 11, 13⟩
    cameraUp := ⟨17, 19, 23⟩ }

/-! ## Executions of the camera -/

/-- What can happen to the camera state between and during frames. -/
inductive Event (α : Type) where
  /-- The call `glfwPollEvents` leaves the window in a new state; any window is allowed,
  which covers every key, button and cursor state the environment can produce. -/
  | poll (w : Window α)
  /-- The call of `ScrollCallback` with the two offsets. -/
  | scroll (xoffset yoffset : α)
  /-- The call of `ProcessInput` with `deltaTime`. -/
  | input (deltaTime : α)

/-- One event applied to the state. -/
def step (M : Libm α) (s : State α) : Event α → State α
  | .poll w => { s with window := w }
  | .scroll x y => ScrollCallback s x y
  | .input dt => ProcessInput M s dt

/-- A sequence of events applied in order. -/
def run (M : Libm α) (s : State α) (es : List (Event α)) : State α :=
  es.foldl (step M) s

/-! ## The frame timer of `main` -/

/-- The timing variables of `main` (lines 150-157). -/
structure FrameClock (α : Type) where
  intervalStoredFrameTime : α
  lastFrameTime : α
  currentFrameTime : α
  deltaTime : α
  intervalDeltaTime : α
  intervalFrameCount : Nat
deriving DecidableEq, Repr

/-- The two numbers written into the window title (lines 179-182). -/
structure Title (α : Type) where
  fps : α
  ms : α
deriving DecidableEq, Repr

/-- The timing variables before the render loop; `deltaTime` and `intervalDeltaTime` are
declared without a value and are written in every iteration before they are read. -/
def initialClock : FrameClock α :=
  { intervalStoredFrameTime := 0, lastFrameTime := 0, currentFrameTime := 0,
    deltaTime := 0, intervalDeltaTime := 0, intervalFrameCount := 0 }

/-- Lines 179-180: the title values from the frame count and the interval. -/
def newTitle (intervalFrameCount : Nat) (intervalDeltaTime : α) : Title α :=
  { fps := (intervalFrameCount : α) / intervalDeltaTime
    ms := (intervalDeltaTime / (intervalFrameCount : α)) * 1000 }

/-- Lines 164-187 of the render loop, for the value `time` returned by `glfwGetTime`:
the clock afterwards and the title set in this iteration, if one is. -/
def timerTick (c : FrameClock α) (time : α) : FrameClock α × Option (Title α) :=
  let currentFrameTime := time
  let intervalDeltaTime := currentFrameTime - c.intervalStoredFrameTime
  let intervalFrameCount := (c.intervalFrameCount + 1) % 2 ^ 32
  let deltaTime := currentFrameTime - c.lastFrameTime
  let lastFrameTime := currentFrameTime
  let c : FrameClock α :=
    { c with
      currentFrameTime := currentFrameTime
      intervalDeltaTime := intervalDeltaTime
      intervalFrameCount := intervalFrameCount
      deltaTime := deltaTime
      lastFrameTime := lastFrameTime }
  if intervalDeltaTime ≥ 1 / 30 then
    ({ c with intervalStoredFrameTime := currentFrameTime, intervalFrameCount := 0 },
      some (newTitle intervalFrameCount intervalDeltaTime))
  else
    (c, none)

/-- The clock after the iterations whose `glfwGetTime` values are `times`. -/
def timerRun (c : FrameClock α) (times : List α) : FrameClock α :=
  times.foldl (fun c t => (timerTick c t).1) c

/-- The `deltaTime` of each iteration, in order. -/
def timerDeltas (c : FrameClock α) : List α → List α
  | [] => []
  | t :: ts => (timerTick c t).1.deltaTime :: timerDeltas (timerTick c t).1 ts

end Defs

/-! ## Theorems -/

section ScrollCallback

variable {α : Type} [LinearOrderedField α]

/-- When `cameraSpeed + yoffset` lies in `[0.1, 10]`, neither branch of `ScrollCallback` is
taken and the state, and so `cameraSpeed`, is as it was. -/
theorem ScrollCallback_in_range_unchanged (s : State α) (xoffset yoffset : α)
    (hlo : 1 / 10 ≤ s.cameraSpeed + yoffset) (hhi : s.cameraSpeed + yoffset ≤ 10) :
    ScrollCallback s xoffset yoffset = s := by
  simp only [ScrollCallback]
  rw [if_neg (not_lt.mpr hlo), if_neg (not_lt.mpr hhi)]

/-- C1 at a concrete input: on the start-up state (speed 10) a scroll of `-1` gives
`newSpeed = 9`, inside `[0.1, 10]`, and the speed after `ScrollCallback` is still 10, not 9;
likewise from speed 5 a scroll of `+0.5` leaves the speed at 5, not 5.5. -/
theorem ScrollCallback_pass_through_fails :
    ((initialState (idleWindow (0 : ℚ) 0)).cameraSpeed + (-1) = 9
      ∧ (1 / 10 : ℚ) ≤ 9 ∧ (9 : ℚ) ≤ 10
      ∧ (ScrollCallback (initialState (idleWindow (0 : ℚ) 0)) 0 (-1)).cameraSpeed = 10
      ∧ (ScrollCallback (initialState (idleWindow (0 : ℚ) 0)) 0 (-1)).cameraSpeed ≠ 9)
    ∧ ((ScrollCallback { initialState (idleWindow (0 : ℚ) 0) with cameraSpeed := 5 } 0
          (1 / 2)).cameraSpeed = 5
      ∧ (ScrollCallback { initialState (idleWindow (0 : ℚ) 0) with cameraSpeed := 5 } 0
          (1 / 2)).cameraSpeed ≠ 5 + 1 / 2) := by
  norm_num [ScrollCallback, initialState]

/-- C2: whatever the current speed and the scroll offsets, if `cameraSpeed + yoffset < 0.1`
the speed after `ScrollCallback` is exactly `0.1`, and if `cameraSpeed + yoffset > 10` it is
exactly `10`. -/
theorem ScrollCallback_clamps (s : State α) (xoffset yoffset : α) :
    (s.cameraSpeed + yoffset < 1 / 10 →
        (ScrollCallback s xoffset yoffset).cameraSpeed = 1 / 10)
    ∧ (s.cameraSpeed + yoffset > 10 →
        (ScrollCallback s xoffset yoffset).cameraSpeed = 10) := by
  constructor
  · intro h
    simp only [ScrollCallback]
    rw [if_pos h]
  · intro h
    have hlo : ¬ s.cameraSpeed + yoffset < 1 / 10 := by
      have h10 : (1 / 10 : α) < 10 := by norm_num
      exact not_lt.mpr (le_of_lt (lt_trans h10 h))
    simp only [ScrollCallback]
    rw [if_neg hlo, if_pos h]

/-- C2 at the spec's inputs: from speed 5, a scroll of `-100` gives `0.1` and a scroll of
`+100` gives `10`. -/
theorem ScrollCallback_clamps_witness :
    (ScrollCallback { initialState (idleWindow (0 : ℚ) 0) with cameraSpeed := 5 } 0
        (-100)).cameraSpeed = 1 / 10
    ∧ (ScrollCallback { initialState (idleWindow (0 : ℚ) 0) with cameraSpeed := 5 } 0
        100).cameraSpeed = 10 :=
  ⟨(ScrollCallback_clamps _ 0 (-100)).1 (by norm_num [initialState]),
   (ScrollCallback_clamps _ 0 100).2 (by norm_num [initialState])⟩

end ScrollCallback

section ProcessInputLemmas

variable {α : Type} [LinearOrderedField α]

theorem keysFrame_keyEscapeStep (s : State α) : keysFrame (keyEscapeStep s) = keysFrame s := by
  simp only [keyEscapeStep]; split_ifs <;> rfl

theorem keysFrame_keyWStep (s : State α) (dt : α) : keysFrame (keyWStep s dt) = keysFrame s := by
  simp only [keyWStep]; split_ifs <;> rfl

theorem keysFrame_keySStep (s : State α) (dt : α) : keysFrame (keySStep s dt) = keysFrame s := by
  simp only [keySStep]; split_ifs <;> rfl

theorem keysFrame_keyAStep (s : State α) (dt : α) : keysFrame (keyAStep s dt) = keysFrame s := by
  simp only [keyAStep]; split_ifs <;> rfl

theorem keysFrame_keyDStep (s : State α) (dt : α) : keysFrame (keyDStep s dt) = keysFrame s := by
  simp only [keyDStep]; split_ifs <;> rfl

theorem keysFrame_keySpaceStep (s : State α) (dt : α) :
    keysFrame (keySpaceStep s dt) = keysFrame s := by
  simp only [keySpaceStep]; split_ifs <;> rfl

theorem keysFrame_keyLeftControlStep (s : State α) (dt : α) :
    keysFrame (keyLeftControlStep s dt) = keysFrame s := by
  simp only [keyLeftControlStep]; split_ifs <;> rfl

/-- The key handling writes only `cameraPosition` and the close flag of the window. -/
theorem keysFrame_processKeys (s : State α) (dt : α) :
    keysFrame (processKeys s dt) = keysFrame s := by
  simp only [processKeys, keysFrame_keyLeftControlStep, keysFrame_keySpaceStep,
    keysFrame_keyDStep, keysFrame_keyAStep, keysFrame_keySStep, keysFrame_keyWStep,
    keysFrame_keyEscapeStep]

/-- The fields that survive `keysFrame`, read off a state through `keysFrame`. -/
theorem keysFrame_fields (s : State α) :
    (keysFrame s).cameraForward = s.cameraForward
    ∧ (keysFrame s).cameraRight = s.cameraRight
    ∧ (keysFrame s).cameraUp = s.cameraUp
    ∧ (keysFrame s).cameraYaw = s.cameraYaw
    ∧ (keysFrame s).cameraPitch = s.cameraPitch
    ∧ (keysFrame s).cameraSpeed = s.cameraSpeed
    ∧ (keysFrame s).cameraSensitivity = s.cameraSensitivity
    ∧ (keysFrame s).firstClick = s.firstClick
    ∧ (keysFrame s).savedMouseX = s.savedMouseX
    ∧ (keysFrame s).savedMouseY = s.savedMouseY
    ∧ (keysFrame s).window.mouseButtonLeft = s.window.mouseButtonLeft
    ∧ (keysFrame s).window.cursorX = s.window.cursorX
    ∧ (keysFrame s).window.cursorY = s.window.cursorY
    ∧ (keysFrame s).window.cursorMode = s.window.cursorMode
    ∧ (keysFrame s).window.keyW = s.window.keyW
    ∧ (keysFrame s).window.keyS = s.window.keyS
    ∧ (keysFrame s).window.keyA = s.window.keyA
    ∧ (keysFrame s).window.keyD = s.window.keyD
    ∧ (keysFrame s).window.keySpace = s.window.keySpace
    ∧ (keysFrame s).window.keyLeftControl = s.window.keyLeftControl :=
  ⟨rfl, rfl, rfl, rfl, rfl, rfl, rfl, rfl, rfl, rfl,
   rfl, rfl, rfl, rfl, rfl, rfl, rfl, rfl, rfl, rfl⟩

/-- If two states agree under `keysFrame`, they agree on every field but the position
and the close flag. -/
theorem fields_of_keysFrame_eq {s t : State α} (h : keysFrame t = keysFrame s) :
    t.cameraForward = s.cameraForward
    ∧ t.cameraRight = s.cameraRight
    ∧ t.cameraUp = s.cameraUp
    ∧ t.cameraYaw = s.cameraYaw
    ∧ t.cameraPitch = s.cameraPitch
    ∧ t.cameraSpeed = s.cameraSpeed
    ∧ t.cameraSensitivity = s.cameraSensitivity
    ∧ t.firstClick = s.firstClick
    ∧ t.savedMouseX = s.savedMouseX
    ∧ t.savedMouseY = s.savedMouseY
    ∧ t.window.mouseButtonLeft = s.window.mouseButtonLeft
    ∧ t.window.cursorX = s.window.cursorX
    ∧ t.window.cursorY = s.window.cursorY
    ∧ t.window.cursorMode = s.window.cursorMode
    ∧ t.window.keyW = s.window.keyW
    ∧ t.window.keyS = s.window.keyS
    ∧ t.window.keyA = s.window.keyA
    ∧ t.window.keyD = s.window.keyD
    ∧ t.window.keySpace = s.window.keySpace
    ∧ t.window.keyLeftControl = s.window.keyLeftControl := by
  obtain ⟨a0, a1, a2, a3, a4, a5, a6, a7, a8, a9,
    a10, a11, a12, a13, a14, a15, a16, a17, a18, a19⟩ := keysFrame_fields s
  obtain ⟨b0, b1, b2, b3, b4, b5, b6, b7, b8, b9,
    b10, b11, b12, b13, b14, b15, b16, b17, b18, b19⟩ := keysFrame_fields t
  refine ⟨?_, ?_, ?_, ?_, ?_, ?_, ?_, ?_, ?_, ?_, ?_, ?_, ?_, ?_, ?_, ?_, ?_, ?_, ?_, ?_⟩
  · rw [← a0, ← b0, h]
  · rw [← a1, ← b1, h]
  · rw [← a2, ← b2, h]
  · rw [← a3, ← b3, h]
  · rw [← a4, ← b4, h]
  · rw [← a5, ← b5, h]
  · rw [← a6, ← b6, h]
  · rw [← a7, ← b7, h]
  · rw [← a8, ← b8, h]
  · rw [← a9, ← b9, h]
  · rw [← a10, ← b10, h]
  · rw [← a11, ← b11, h]
  · rw [← a12, ← b12, h]
  · rw [← a13, ← b13, h]
  · rw [← a14, ← b14, h]
  · rw [← a15, ← b15, h]
  · rw [← a16, ← b16, h]
  · rw [← a17, ← b17, h]
  · rw [← a18, ← b18, h]
  · rw [← a19, ← b19, h]

/-- Everything `processMouse` reads, and every key, is as it was before the key handling. -/
theorem processKeys_fields (s : State α) (dt : α) :
    (processKeys s dt).cameraForward = s.cameraForward
    ∧ (processKeys s dt).cameraRight = s.cameraRight
    ∧ (processKeys s dt).cameraUp = s.cameraUp
    ∧ (processKeys s dt).cameraYaw = s.cameraYaw
    ∧ (processKeys s dt).cameraPitch = s.cameraPitch
    ∧ (processKeys s dt).cameraSpeed = s.cameraSpeed
    ∧ (processKeys s dt).cameraSensitivity = s.cameraSensitivity
    ∧ (processKeys s dt).firstClick = s.firstClick
    ∧ (processKeys s dt).savedMouseX = s.savedMouseX
    ∧ (processKeys s dt).savedMouseY = s.savedMouseY
    ∧ (processKeys s dt).window.mouseButtonLeft = s.window.mouseButtonLeft
    ∧ (processKeys s dt).window.cursorX = s.window.cursorX
    ∧ (processKeys s dt).window.cursorY = s.window.cursorY
    ∧ (processKeys s dt).window.cursorMode = s.window.cursorMode
    ∧ (processKeys s dt).window.keyW = s.window.keyW
    ∧ (processKeys s dt).window.keyS = s.window.keyS
    ∧ (processKeys s dt).window.keyA = s.window.keyA
    ∧ (processKeys s dt).window.keyD = s.window.keyD
    ∧ (processKeys s dt).window.keySpace = s.window.keySpace
    ∧ (processKeys s dt).window.keyLeftControl = s.window.keyLeftControl :=
  fields_of_keysFrame_eq (keysFrame_processKeys s dt)

theorem clampPitch_le (p : α) : clampPitch p ≤ 89 := by
  simp only [clampPitch]
  split_ifs <;> linarith

theorem clampPitch_ge (p : α) : -89 ≤ clampPitch p := by
  simp only [clampPitch]
  split_ifs <;> linarith

theorem clampPitch_of_gt {p : α} (h : 89 < p) : clampPitch p = 89 := by
  simp only [clampPitch]
  split_ifs <;> linarith

theorem clampPitch_of_lt {p : α} (h : p < -89) : clampPitch p = -89 := by
  simp only [clampPitch]
  split_ifs <;> linarith

theorem clampPitch_eq_max_min (p : α) : clampPitch p = max (-89) (min 89 p) := by
  simp only [clampPitch]
  split_ifs with h1 h2 h2
  · linarith
  · rw [min_eq_left (le_of_lt h1), max_eq_right (by norm_num)]
  · rw [min_eq_right (le_of_not_lt h1), max_eq_left (le_of_lt h2)]
  · rw [min_eq_right (le_of_not_lt h1), max_eq_right (le_of_not_lt h2)]

/-- The mouse handling never writes the position. -/
theorem processMouse_cameraPosition (M : Libm α) (k : State α) (dt : α) :
    (processMouse M k dt).cameraPosition = k.cameraPosition := by
  simp only [processMouse, lookStep]
  split_ifs <;> rfl

/-- Button pressed on the first click: the anchor is taken and the cursor disabled. -/
theorem processMouse_press_first (M : Libm α) (k : State α) (dt : α)
    (hp : k.window.mouseButtonLeft = .press) (hf : k.firstClick = true) :
    processMouse M k dt =
      { k with
        savedMouseX := k.window.cursorX
        savedMouseY := k.window.cursorY
        firstClick := false
        window := { k.window with cursorMode := .disabled } } := by
  simp only [processMouse]
  rw [if_pos hp, if_pos hf]

/-- Button pressed after the first click: the look step. -/
theorem processMouse_press_held (M : Libm α) (k : State α) (dt : α)
    (hp : k.window.mouseButtonLeft = .press) (hf : k.firstClick = false) :
    processMouse M k dt = lookStep M k dt := by
  simp only [processMouse]
  rw [if_pos hp, if_neg (by simp [hf])]

/-- Button released: the cursor is freed and `firstClick` is true afterwards. -/
theorem processMouse_release (M : Libm α) (k : State α) (dt : α)
    (hr : k.window.mouseButtonLeft = .release) :
    processMouse M k dt =
      { k with firstClick := true, window := { k.window with cursorMode := .normal } } := by
  have hp : ¬ k.window.mouseButtonLeft = .press := by rw [hr]; decide
  simp only [processMouse]
  rw [if_neg hp, if_pos hr]
  cases hf : k.firstClick
  · simp
  · simp only [Bool.not_true, Bool.false_eq_true, if_false]

/-- The mouse handling keeps `cameraPitch` inside `[-89, 89]`. -/
theorem processMouse_pitch_bounds (M : Libm α) (k : State α) (dt : α)
    (h : -89 ≤ k.cameraPitch ∧ k.cameraPitch ≤ 89) :
    -89 ≤ (processMouse M k dt).cameraPitch ∧ (processMouse M k dt).cameraPitch ≤ 89 := by
  cases hb : k.window.mouseButtonLeft
  · rw [processMouse_release M k dt hb]; exact h
  · cases hf : k.firstClick
    · rw [processMouse_press_held M k dt hb hf]
      exact ⟨clampPitch_ge _, clampPitch_le _⟩
    · rw [processMouse_press_first M k dt hb hf]; exact h

/-- Every event keeps `cameraPitch` inside `[-89, 89]`. -/
theorem step_pitch_bounds (M : Libm α) (s : State α) (e : Event α)
    (h : -89 ≤ s.cameraPitch ∧ s.cameraPitch ≤ 89) :
    -89 ≤ (step M s e).cameraPitch ∧ (step M s e).cameraPitch ≤ 89 := by
  cases e with
  | poll w => exact h
  | scroll x y =>
    simp only [step, ScrollCallback]
    split_ifs <;> exact h
  | input dt =>
    simp only [step, ProcessInput]
    apply processMouse_pitch_bounds
    rw [(processKeys_fields s dt).2.2.2.2.1]
    exact h

theorem run_pitch_bounds (M : Libm α) (es : List (Event α)) (s : State α)
    (h : -89 ≤ s.cameraPitch ∧ s.cameraPitch ≤ 89) :
    -89 ≤ (run M s es).cameraPitch ∧ (run M s es).cameraPitch ≤ 89 := by
  induction es generalizing s with
  | nil => exact h
  | cons e es ih => exact ih (step M s e) (step_pitch_bounds M s e h)

end ProcessInputLemmas

section ProcessInput

variable {α : Type} [LinearOrderedField α]

/-- C3: from the start-up state (pitch 0), after any sequence of window updates, scroll
callbacks and `ProcessInput` calls with any `deltaTime`, `cameraPitch` lies in `[-89, 89]`;
and a look step whose unclamped pitch exceeds 89 leaves the pitch exactly 89, one whose
unclamped pitch is below -89 leaves it exactly -89. -/
theorem cameraPitch_clamped (M : Libm α) (w : Window α) (es : List (Event α))
    (s : State α) (dt : α) :
    (-89 ≤ (run M (initialState w) es).cameraPitch
      ∧ (run M (initialState w) es).cameraPitch ≤ 89)
    ∧ (s.window.mouseButtonLeft = .press → s.firstClick = false →
        89 < s.cameraPitch + (s.savedMouseY - s.window.cursorY) * s.cameraSensitivity * dt →
        (ProcessInput M s dt).cameraPitch = 89)
    ∧ (s.window.mouseButtonLeft = .press → s.firstClick = false →
        s.cameraPitch + (s.savedMouseY - s.window.cursorY) * s.cameraSensitivity * dt < -89 →
        (ProcessInput M s dt).cameraPitch = -89) := by
  obtain ⟨-, -, -, -, hpitch, -, hsens, hfc, -, hsy, hmb, -, hcy, -⟩ := processKeys_fields s dt
  refine ⟨run_pitch_bounds M es _ ⟨by simp [initialState], by simp [initialState]⟩, ?_, ?_⟩
  · intro hp hf h
    simp only [ProcessInput]
    rw [processMouse_press_held M _ dt (hmb.trans hp) (hfc.trans hf)]
    simp only [lookStep]
    rw [hpitch, hsens, hsy, hcy]
    exact clampPitch_of_gt h
  · intro hp hf h
    simp only [ProcessInput]
    rw [processMouse_press_held M _ dt (hmb.trans hp) (hfc.trans hf)]
    simp only [lookStep]
    rw [hpitch, hsens, hsy, hcy]
    exact clampPitch_of_lt h

/-- C3 at the spec's input: a look step that would push the pitch from 0 to 95 leaves it at
89, and one that would push it to -95 leaves it at -89. -/
theorem cameraPitch_clamped_witness :
    ((0 : ℝ) + (19 / 2 - 0) * 10 * 1 = 95
      ∧ (ProcessInput realLibm (heldState 0 (19 / 2) 0 0) 1).cameraPitch = 89)
    ∧ ((0 : ℝ) + (-19 / 2 - 0) * 10 * 1 = -95
      ∧ (ProcessInput realLibm (heldState 0 (-19 / 2) 0 0) 1).cameraPitch = -89) :=
  ⟨⟨by norm_num,
    (cameraPitch_clamped realLibm (idleWindow 0 0) [] (heldState 0 (19 / 2) 0 0) 1).2.1
      rfl rfl (by norm_num [heldState, initialState, idleWindow])⟩,
   ⟨by norm_num,
    (cameraPitch_clamped realLibm (idleWindow 0 0) [] (heldState 0 (-19 / 2) 0 0) 1).2.2
      rfl rfl (by norm_num [heldState, initialState, idleWindow])⟩⟩

/-- C6: with Released meaning `firstClick = true`: a `ProcessInput` call in Released with
the left button pressed ends in Captured with the cursor disabled, the anchor equal to the
cursor position the window reports, and yaw, pitch, forward, right and up unchanged; a call
in Captured with the button released ends in Released with the cursor freed; a call in
Released with the button released stays Released; a call in Captured with the button
pressed stays Captured with the anchor unchanged. -/
theorem capture_transitions (M : Libm α) (s : State α) (dt : α) :
    (s.firstClick = true → s.window.mouseButtonLeft = .press →
        (ProcessInput M s dt).firstClick = false
        ∧ (ProcessInput M s dt).savedMouseX = s.window.cursorX
        ∧ (ProcessInput M s dt).savedMouseY = s.window.cursorY
        ∧ (ProcessInput M s dt).window.cursorMode = .disabled
        ∧ (ProcessInput M s dt).cameraYaw = s.cameraYaw
        ∧ (ProcessInput M s dt).cameraPitch = s.cameraPitch
        ∧ (ProcessInput M s dt).cameraForward = s.cameraForward
        ∧ (ProcessInput M s dt).cameraRight = s.cameraRight
        ∧ (ProcessInput M s dt).cameraUp = s.cameraUp)
    ∧ (s.firstClick = false → s.window.mouseButtonLeft = .release →
        (ProcessInput M s dt).firstClick = true
        ∧ (ProcessInput M s dt).window.cursorMode = .normal)
    ∧ (s.firstClick = true → s.window.mouseButtonLeft = .release →
        (ProcessInput M s dt).firstClick = true)
    ∧ (s.firstClick = false → s.window.mouseButtonLeft = .press →
        (ProcessInput M s dt).firstClick = false
        ∧ (ProcessInput M s dt).savedMouseX = s.savedMouseX
        ∧ (ProcessInput M s dt).savedMouseY = s.savedMouseY) := by
  obtain ⟨hfw, hrt, hup, hyaw, hpitch, -, -, hfc, hsx, hsy, hmb, hcx, hcy, -⟩ :=
    processKeys_fields s dt
  simp only [ProcessInput]
  generalize processKeys s dt = k at *
  refine ⟨?_, ?_, ?_, ?_⟩
  · intro hf hp
    rw [processMouse_press_first M k dt (hmb.trans hp) (hfc.trans hf)]
    exact ⟨rfl, hcx, hcy, rfl, hyaw, hpitch, hfw, hrt, hup⟩
  · intro _ hr
    rw [processMouse_release M k dt (hmb.trans hr)]
    exact ⟨rfl, rfl⟩
  · intro _ hr
    rw [processMouse_release M k dt (hmb.trans hr)]
  · intro hf hp
    rw [processMouse_press_held M k dt (hmb.trans hp) (hfc.trans hf)]
    exact ⟨hfc.trans hf, hsx, hsy⟩

/-- C6 on concrete states: a press at cursor `(3, 4)` from the start-up state captures with
anchor `(3, 4)`; releasing from a captured state returns to Released. -/
theorem capture_transitions_witness :
    ((ProcessInput realLibm
        (initialState { idleWindow (3 : ℝ) 4 with mouseButtonLeft := .press }) 1).firstClick
        = false
      ∧ (ProcessInput realLibm
        (initialState { idleWindow (3 : ℝ) 4 with mouseButtonLeft := .press }) 1).savedMouseX
        = 3
      ∧ (ProcessInput realLibm
        (initialState { idleWindow (3 : ℝ) 4 with mouseButtonLeft := .press }) 1).savedMouseY
        = 4)
    ∧ (ProcessInput realLibm
        { heldState (3 : ℝ) 4 5 6 with window := idleWindow 5 6 } 1).firstClick = true :=
  ⟨⟨((capture_transitions realLibm
        (initialState { idleWindow (3 : ℝ) 4 with mouseButtonLeft := .press }) 1).1
        rfl rfl).1,
    ((capture_transitions realLibm
        (initialState { idleWindow (3 : ℝ) 4 with mouseButtonLeft := .press }) 1).1
        rfl rfl).2.1,
    ((capture_transitions realLibm
        (initialState { idleWindow (3 : ℝ) 4 with mouseButtonLeft := .press }) 1).1
        rfl rfl).2.2.1⟩,
   ((capture_transitions realLibm
        { heldState (3 : ℝ) 4 5 6 with window := idleWindow 5 6 } 1).2.1 rfl rfl).1⟩

/-- C7: in Captured (`firstClick = false`) with the button pressed and the window reporting
the cursor at `(mouseX, mouseY)`, `ProcessInput` makes the yaw
`yaw + (mouseX - savedMouseX) * sensitivity * deltaTime`, the pitch
`clamp (pitch + (savedMouseY - mouseY) * sensitivity * deltaTime) (-89) 89`, and leaves the
window's cursor at the anchor `(savedMouseX, savedMouseY)`. -/
theorem held_look_step (M : Libm α) (s : State α) (dt : α)
    (hf : s.firstClick = false) (hp : s.window.mouseButtonLeft = .press) :
    (ProcessInput M s dt).cameraYaw
        = s.cameraYaw + (s.window.cursorX - s.savedMouseX) * s.cameraSensitivity * dt
    ∧ (ProcessInput M s dt).cameraPitch
        = max (-89) (min 89
            (s.cameraPitch + (s.savedMouseY - s.window.cursorY) * s.cameraSensitivity * dt))
    ∧ (ProcessInput M s dt).window.cursorX = s.savedMouseX
    ∧ (ProcessInput M s dt).window.cursorY = s.savedMouseY := by
  obtain ⟨-, -, -, hyaw, hpitch, -, hsens, hfc, hsx, hsy, hmb, hcx, hcy, -⟩ :=
    processKeys_fields s dt
  simp only [ProcessInput]
  rw [processMouse_press_held M _ dt (hmb.trans hp) (hfc.trans hf)]
  simp only [lookStep]
  rw [hyaw, hpitch, hsens, hsx, hsy, hcx, hcy]
  exact ⟨rfl, clampPitch_eq_max_min _, rfl, rfl⟩

/-- C7 on a concrete state: anchor `(100, 100)`, cursor reported at `(103, 98)`, sensitivity
10, `deltaTime` 1/10, yaw 90, pitch 0: the yaw becomes 93, the pitch 2, and the cursor is put
back at `(100, 100)`. -/
theorem held_look_step_witness :
    (ProcessInput realLibm (heldState 100 100 103 98) (1 / 10)).cameraYaw = 93
    ∧ (ProcessInput realLibm (heldState 100 100 103 98) (1 / 10)).cameraPitch = 2
    ∧ (ProcessInput realLibm (heldState 100 100 103 98) (1 / 10)).window.cursorX = 100
    ∧ (ProcessInput realLibm (heldState 100 100 103 98) (1 / 10)).window.cursorY = 100 := by
  obtain ⟨h1, h2, h3, h4⟩ :=
    held_look_step realLibm (heldState 100 100 103 98) (1 / 10) rfl rfl
  refine ⟨?_, ?_, h3, h4⟩
  · rw [h1]; norm_num [heldState, initialState, idleWindow]
  · rw [h2]
    norm_num [heldState, initialState, idleWindow]

/-- C5: in a `ProcessInput` call in which `W` is the only movement key held, each
component of the new position is the old component plus the same component of
`cameraForward` times `cameraSpeed` times `deltaTime`, with `cameraForward` the vector held
before the call, whatever the mouse does in the same call; likewise `S` alone subtracts
that product, `A` alone subtracts and `D` alone adds the product taken with `cameraRight`,
space alone adds and left control alone subtracts the product taken with `cameraUp`. -/
theorem translation_step (M : Libm α) (s : State α) (dt : α) :
    (heldKeys s.window = [.press, .release, .release, .release, .release, .release] →
        (ProcessInput M s dt).cameraPosition.x
            = s.cameraPosition.x + s.cameraForward.x * s.cameraSpeed * dt
        ∧ (ProcessInput M s dt).cameraPosition.y
            = s.cameraPosition.y + s.cameraForward.y * s.cameraSpeed * dt
        ∧ (ProcessInput M s dt).cameraPosition.z
            = s.cameraPosition.z + s.cameraForward.z * s.cameraSpeed * dt)
    ∧ (heldKeys s.window = [.release, .press, .release, .release, .release, .release] →
        (ProcessInput M s dt).cameraPosition.x
            = s.cameraPosition.x - s.cameraForward.x * s.cameraSpeed * dt
        ∧ (ProcessInput M s dt).cameraPosition.y
            = s.cameraPosition.y - s.cameraForward.y * s.cameraSpeed * dt
        ∧ (ProcessInput M s dt).cameraPosition.z
            = s.cameraPosition.z - s.cameraForward.z * s.cameraSpeed * dt)
    ∧ (heldKeys s.window = [.release, .release, .press, .release, .release, .release] →
        (ProcessInput M s dt).cameraPosition.x
            = s.cameraPosition.x - s.cameraRight.x * s.cameraSpeed * dt
        ∧ (ProcessInput M s dt).cameraPosition.y
            = s.cameraPosition.y - s.cameraRight.y * s.cameraSpeed * dt
        ∧ (ProcessInput M s dt).cameraPosition.z
            = s.cameraPosition.z - s.cameraRight.z * s.cameraSpeed * dt)
    ∧ (heldKeys s.window = [.release, .release, .release, .press, .release, .release] →
        (ProcessInput M s dt).cameraPosition.x
            = s.cameraPosition.x + s.cameraRight.x * s.cameraSpeed * dt
        ∧ (ProcessInput M s dt).cameraPosition.y
            = s.cameraPosition.y + s.cameraRight.y * s.cameraSpeed * dt
        ∧ (ProcessInput M s dt).cameraPosition.z
            = s.cameraPosition.z + s.cameraRight.z * s.cameraSpeed * dt)
    ∧ (heldKeys s.window = [.release, .release, .release, .release, .press, .release] →
        (ProcessInput M s dt).cameraPosition.x
            = s.cameraPosition.x + s.cameraUp.x * s.cameraSpeed * dt
        ∧ (ProcessInput M s dt).cameraPosition.y
            = s.cameraPosition.y + s.cameraUp.y * s.cameraSpeed * dt
        ∧ (ProcessInput M s dt).cameraPosition.z
            = s.cameraPosition.z + s.cameraUp.z * s.cameraSpeed * dt)
    ∧ (heldKeys s.window = [.release, .release, .release, .release, .release, .press] →
        (ProcessInput M s dt).cameraPosition.x
            = s.cameraPosition.x - s.cameraUp.x * s.cameraSpeed * dt
        ∧ (ProcessInput M s dt).cameraPosition.y
            = s.cameraPosition.y - s.cameraUp.y * s.cameraSpeed * dt
        ∧ (ProcessInput M s dt).cameraPosition.z
            = s.cameraPosition.z - s.cameraUp.z * s.cameraSpeed * dt) := by
  simp only [ProcessInput, processMouse_cameraPosition]
  obtain ⟨pos, f, r, u, fov, yaw, pitch, sp, sens, fc, smx, smy,
    ⟨kE, kW, kS, kA, kD, kSp, kC, mb, cx, cy, cm, sc⟩⟩ := s
  refine ⟨?_, ?_, ?_, ?_, ?_, ?_⟩ <;>
  · intro h
    simp only [heldKeys, List.cons.injEq, and_true] at h
    obtain ⟨rfl, rfl, rfl, rfl, rfl, rfl⟩ := h
    cases kE <;>
      simp [processKeys, keyEscapeStep, keyWStep, keySStep, keyAStep, keyDStep, keySpaceStep,
        keyLeftControlStep, Vec3.add, Vec3.sub, Vec3.scale]

/-- C5 at concrete inputs, speed 10 and `deltaTime` 1 throughout. With `W` held at the
spec's position `(0, 2, -10)` and forward `(0, 0, 1)`, in a call that also takes a look step
with cursor delta `(3, -2)`, the position becomes `(0, 2, 0)`. From a state at position
`(1, 2, 3)` with forward `(2, 3, 5)`, right `(7, 11, 13)` and up `(17, 19, 23)`: `S` alone
gives `(-19, -28, -47)`, `A` alone `(-69, -108, -127)`, `D` alone `(71, 112, 133)`, space
alone `(171, 192, 233)` and left control alone `(-169, -188, -227)`. -/
theorem translation_step_witness :
    ((ProcessInput realLibm
        { heldState (100 : ℝ) 100 103 98 with
          window := { (heldState (100 : ℝ) 100 103 98).window with keyW := .press } }
        1).cameraPosition.x = 0
      ∧ (ProcessInput realLibm
        { heldState (100 : ℝ) 100 103 98 with
          window := { (heldState (100 : ℝ) 100 103 98).window with keyW := .press } }
        1).cameraPosition.y = 2
      ∧ (ProcessInput realLibm
        { heldState (100 : ℝ) 100 103 98 with
          window := { (heldState (100 : ℝ) 100 103 98).window with keyW := .press } }
        1).cameraPosition.z = 0)
    ∧ ((ProcessInput realLibm
          (skewState { idleWindow (0 : ℝ) 0 with keyS := .press }) 1).cameraPosition.x = -19
      ∧ (ProcessInput realLibm
          (skewState { idleWindow (0 : ℝ) 0 with keyS := .press }) 1).cameraPosition.y = -28
      ∧ (ProcessInput realLibm
          (skewState { idleWindow (0 : ℝ) 0 with keyS := .press }) 1).cameraPosition.z = -47)
    ∧ ((ProcessInput realLibm
          (skewState { idleWindow (0 : ℝ) 0 with keyA := .press }) 1).cameraPosition.x = -69
      ∧ (ProcessInput realLibm
          (skewState { idleWindow (0 : ℝ) 0 with keyA := .press }) 1).cameraPosition.y = -108
      ∧ (ProcessInput realLibm
          (skewState { idleWindow (0 : ℝ) 0 with keyA := .press }) 1).cameraPosition.z = -127)
    ∧ ((ProcessInput realLibm
          (skewState { idleWindow (0 : ℝ) 0 with keyD := .press }) 1).cameraPosition.x = 71
      ∧ (ProcessInput realLibm
          (skewState { idleWindow (0 : ℝ) 0 with keyD := .press }) 1).cameraPosition.y = 112
      ∧ (ProcessInput realLibm
          (skewState { idleWindow (0 : ℝ) 0 with keyD := .press }) 1).cameraPosition.z = 133)
    ∧ ((ProcessInput realLibm
          (skewState { idleWindow (0 : ℝ) 0 with keySpace := .press }) 1).cameraPosition.x
          = 171
      ∧ (ProcessInput realLibm
          (skewState { idleWindow (0 : ℝ) 0 with keySpace := .press }) 1).cameraPosition.y
          = 192
      ∧ (ProcessInput realLibm
          (skewState { idleWindow (0 : ℝ) 0 with keySpace := .press }) 1).cameraPosition.z
          = 233)
    ∧ ((ProcessInput realLibm
          (skewState { idleWindow (0 : ℝ) 0 with keyLeftControl := .press })
          1).cameraPosition.x = -169
      ∧ (ProcessInput realLibm
          (skewState { idleWindow (0 : ℝ) 0 with keyLeftControl := .press })
          1).cameraPosition.y = -188
      ∧ (ProcessInput realLibm
          (skewState { idleWindow (0 : ℝ) 0 with keyLeftControl := .press })
          1).cameraPosition.z = -227) := by
  obtain ⟨wx, wy, wz⟩ := (translation_step realLibm
      { heldState (100 : ℝ) 100 103 98 with
        window := { (heldState (100 : ℝ) 100 103 98).window with keyW := .press } }
      1).1 rfl
  obtain ⟨sx, sy, sz⟩ := (translation_step realLibm
      (skewState { idleWindow (0 : ℝ) 0 with keyS := .press }) 1).2.1 rfl
  obtain ⟨ax, ay, az⟩ := (translation_step realLibm
      (skewState { idleWindow (0 : ℝ) 0 with keyA := .press }) 1).2.2.1 rfl
  obtain ⟨dx, dy, dz⟩ := (translation_step realLibm
      (skewState { idleWindow (0 : ℝ) 0 with keyD := .press }) 1).2.2.2.1 rfl
  obtain ⟨ux, uy, uz⟩ := (translation_step realLibm
      (skewState { idleWindow (0 : ℝ) 0 with keySpace := .press }) 1).2.2.2.2.1 rfl
  obtain ⟨cx, cy, cz⟩ := (translation_step realLibm
      (skewState { idleWindow (0 : ℝ) 0 with keyLeftControl := .press }) 1).2.2.2.2.2 rfl
  refine ⟨⟨wx.trans ?_, wy.trans ?_, wz.trans ?_⟩, ⟨sx.trans ?_, sy.trans ?_, sz.trans ?_⟩,
    ⟨ax.trans ?_, ay.trans ?_, az.trans ?_⟩, ⟨dx.trans ?_, dy.trans ?_, dz.trans ?_⟩,
    ⟨ux.trans ?_, uy.trans ?_, uz.trans ?_⟩, ⟨cx.trans ?_, cy.trans ?_, cz.trans ?_⟩⟩ <;>
    norm_num [heldState, skewState, initialState, idleWindow]

end ProcessInput

section FrameTimer

variable {α : Type} [LinearOrderedField α]

theorem timerTick_lastFrameTime (c : FrameClock α) (t : α) :
    (timerTick c t).1.lastFrameTime = t := by
  simp only [timerTick]
  split_ifs <;> rfl

theorem timerTick_currentFrameTime (c : FrameClock α) (t : α) :
    (timerTick c t).1.currentFrameTime = t := by
  simp only [timerTick]
  split_ifs <;> rfl

theorem timerTick_deltaTime (c : FrameClock α) (t : α) :
    (timerTick c t).1.deltaTime = t - c.lastFrameTime := by
  simp only [timerTick]
  split_ifs <;> rfl

theorem timerDeltas_eq_zipWith (ts : List α) (c : FrameClock α) :
    timerDeltas c ts = List.zipWith (fun cur prev => cur - prev) ts (c.lastFrameTime :: ts) := by
  induction ts generalizing c with
  | nil => rfl
  | cons t ts ih =>
    simp only [timerDeltas, List.zipWith_cons_cons]
    rw [ih, timerTick_deltaTime, timerTick_lastFrameTime]

theorem timerDeltas_nonneg (ts : List α) (c : FrameClock α)
    (h : List.Chain (fun a b => a ≤ b) c.lastFrameTime ts) :
    ∀ d ∈ timerDeltas c ts, 0 ≤ d := by
  induction ts generalizing c with
  | nil => intro d hd; simp [timerDeltas] at hd
  | cons t ts ih =>
    rw [List.chain_cons] at h
    intro d hd
    simp only [timerDeltas, List.mem_cons] at hd
    rcases hd with hd | hd
    · rw [hd, timerTick_deltaTime]; exact sub_nonneg.mpr h.1
    · refine ih (timerTick c t).1 ?_ d hd
      rw [timerTick_lastFrameTime]; exact h.2

/-- C8: with `lastFrameTime` starting at 0, the `deltaTime` of each iteration is the
current time minus the current time of the previous iteration (minus 0 in the first); when
the times are non-decreasing from that starting value 0 (the values of `glfwGetTime`, seconds
since initialisation) no `deltaTime` is negative; and after every iteration `lastFrameTime`
equals the current time. -/
theorem frame_clock_deltas (ts : List α) (c : FrameClock α) (t : α) :
    timerDeltas initialClock ts = List.zipWith (fun cur prev => cur - prev) ts (0 :: ts)
    ∧ (List.Chain (fun a b => a ≤ b) 0 ts → ∀ d ∈ timerDeltas initialClock ts, 0 ≤ d)
    ∧ ((timerTick c t).1.deltaTime = t - c.lastFrameTime
        ∧ (timerTick c t).1.currentFrameTime = t
        ∧ (timerTick c t).1.lastFrameTime = (timerTick c t).1.currentFrameTime) :=
  ⟨timerDeltas_eq_zipWith ts initialClock,
   fun h => timerDeltas_nonneg ts initialClock h,
   timerTick_deltaTime c t, timerTick_currentFrameTime c t,
   (timerTick_lastFrameTime c t).trans (timerTick_currentFrameTime c t).symm⟩

/-- C8 at the spec's input: the times `[0, 0.016, 0.033]` give the deltas
`[0, 0.016, 0.017]`, none negative. -/
theorem frame_clock_deltas_witness :
    List.Chain (fun a b => a ≤ b) (0 : ℚ) [0, 16 / 1000, 33 / 1000]
    ∧ timerDeltas initialClock [(0 : ℚ), 16 / 1000, 33 / 1000] = [0, 16 / 1000, 17 / 1000]
    ∧ ∀ d ∈ timerDeltas initialClock [(0 : ℚ), 16 / 1000, 33 / 1000], 0 ≤ d := by
  have hc : List.Chain (fun a b => a ≤ b) (0 : ℚ) [0, 16 / 1000, 33 / 1000] := by
    norm_num [List.chain_cons]
  refine ⟨hc, ?_, (frame_clock_deltas [(0 : ℚ), 16 / 1000, 33 / 1000] initialClock 0).2.1 hc⟩
  rw [(frame_clock_deltas [(0 : ℚ), 16 / 1000, 33 / 1000] initialClock 0).1]
  norm_num [List.zipWith]

/-- One iteration raises the frame count by at most one. -/
theorem timerTick_frameCount_le (c : FrameClock α) (t : α) :
    (timerTick c t).1.intervalFrameCount ≤ c.intervalFrameCount + 1 := by
  simp only [timerTick]
  split_ifs
  · exact Nat.zero_le _
  · exact Nat.mod_le _ _

/-- After the iterations for `times` the frame count is at most their number more than
before; from the initial clock it is at most the number of iterations run. -/
theorem timerRun_frameCount_le (times : List α) (c : FrameClock α) :
    (timerRun c times).intervalFrameCount ≤ c.intervalFrameCount + times.length := by
  induction times generalizing c with
  | nil => exact Nat.le_refl _
  | cons t ts ih =>
    have h1 := ih (timerTick c t).1
    have h2 := timerTick_frameCount_le c t
    simp only [timerRun, List.foldl_cons, List.length_cons] at h1 ⊢
    omega

end FrameTimer

section Basis

/-- Over the reals, normalising a vector whose squared length is `c ^ 2` with `c > 0`
divides it by `c`. -/
theorem normalize_real_of_sq (v : Vec3 ℝ) (c : ℝ) (hc : 0 < c)
    (h : Vec3.dot v v = c ^ 2) : normalize realLibm v = v.scale (1 / c) := by
  simp only [normalize, realLibm]
  rw [h, Real.sqrt_sq hc.le]

/-- The cosine of a pitch in `[-89, 89]` degrees is positive. -/
theorem cos_radians_pitch_pos (pitch : ℝ) (hlo : -89 ≤ pitch) (hhi : pitch ≤ 89) :
    0 < Real.cos (radians realLibm pitch) := by
  have hpi := Real.pi_pos
  have h1 := mul_le_mul_of_nonneg_right hhi hpi.le
  have h2 := mul_le_mul_of_nonneg_right hlo hpi.le
  apply Real.cos_pos_of_mem_Ioo
  simp only [radians, realLibm, Set.mem_Ioo]
  constructor <;> linarith

/-- The forward vector over the reals, written out. -/
theorem newForward_real (yaw pitch : ℝ) :
    newForward realLibm yaw pitch =
      ⟨Real.cos (radians realLibm yaw) * Real.cos (radians realLibm pitch),
       Real.sin (radians realLibm pitch),
       Real.sin (radians realLibm yaw) * Real.cos (radians realLibm pitch)⟩ := by
  have hy := Real.sin_sq_add_cos_sq (radians realLibm yaw)
  have hp := Real.sin_sq_add_cos_sq (radians realLibm pitch)
  have hM : realLibm.cos = Real.cos ∧ realLibm.sin = Real.sin := ⟨rfl, rfl⟩
  simp only [newForward, hM.1, hM.2]
  generalize Real.cos (radians realLibm yaw) = cy at *
  generalize Real.sin (radians realLibm yaw) = sy at *
  generalize Real.cos (radians realLibm pitch) = cp at *
  generalize Real.sin (radians realLibm pitch) = sp at *
  rw [normalize_real_of_sq _ 1 one_pos]
  · simp [Vec3.scale]
  · simp only [Vec3.dot]
    linear_combination cp ^ 2 * hy + hp

/-- The right vector over the reals, written out, for a pitch in `[-89, 89]`. -/
theorem newRight_real (yaw pitch : ℝ) (hlo : -89 ≤ pitch) (hhi : pitch ≤ 89) :
    newRight realLibm (newForward realLibm yaw pitch) =
      ⟨-Real.sin (radians realLibm yaw), 0, Real.cos (radians realLibm yaw)⟩ := by
  have hy := Real.sin_sq_add_cos_sq (radians realLibm yaw)
  have hc := cos_radians_pitch_pos pitch hlo hhi
  rw [newForward_real]
  simp only [newRight]
  generalize Real.cos (radians realLibm yaw) = cy at *
  generalize Real.sin (radians realLibm yaw) = sy at *
  generalize Real.cos (radians realLibm pitch) = cp at *
  generalize Real.sin (radians realLibm pitch) = sp at *
  rw [normalize_real_of_sq _ cp hc]
  · simp only [Vec3.cross, Vec3.scale, Vec3.mk.injEq]
    refine ⟨?_, ?_, ?_⟩ <;> field_simp
  · simp only [Vec3.cross, Vec3.dot]
    linear_combination cp ^ 2 * hy

/-- The up vector over the reals, written out, for a pitch in `[-89, 89]`. -/
theorem newUp_real (yaw pitch : ℝ) (hlo : -89 ≤ pitch) (hhi : pitch ≤ 89) :
    newUp realLibm (newRight realLibm (newForward realLibm yaw pitch))
        (newForward realLibm yaw pitch) =
      ⟨-(Real.cos (radians realLibm yaw) * Real.sin (radians realLibm pitch)),
       Real.cos (radians realLibm pitch),
       -(Real.sin (radians realLibm yaw) * Real.sin (radians realLibm pitch))⟩ := by
  have hy := Real.sin_sq_add_cos_sq (radians realLibm yaw)
  have hp := Real.sin_sq_add_cos_sq (radians realLibm pitch)
  rw [newRight_real yaw pitch hlo hhi, newForward_real]
  simp only [newUp]
  generalize Real.cos (radians realLibm yaw) = cy at *
  generalize Real.sin (radians realLibm yaw) = sy at *
  generalize Real.cos (radians realLibm pitch) = cp at *
  generalize Real.sin (radians realLibm pitch) = sp at *
  rw [normalize_real_of_sq _ 1 one_pos]
  · simp only [Vec3.cross, Vec3.scale, Vec3.mk.injEq]
    refine ⟨?_, ?_, ?_⟩
    · ring
    · linear_combination cp * hy
    · ring
  · simp only [Vec3.cross, Vec3.dot]
    linear_combination (sp ^ 2 + cp ^ 2 * (sy ^ 2 + cy ^ 2 + 1)) * hy + hp

/-- The recompute at the start-up angles, yaw 90 and pitch 0, over the reals. -/
theorem basis_at_startup_angles :
    newForward realLibm 90 0 = ⟨0, 0, 1⟩
    ∧ newRight realLibm (newForward realLibm 90 0) = ⟨-1, 0, 0⟩
    ∧ newUp realLibm (newRight realLibm (newForward realLibm 90 0)) (newForward realLibm 90 0)
        = ⟨0, 1, 0⟩ := by
  have h90 : radians realLibm 90 = Real.pi / 2 := by
    simp only [radians, realLibm]; ring
  have h0 : radians realLibm 0 = 0 := by
    simp only [radians, realLibm]; ring
  refine ⟨?_, ?_, ?_⟩
  · rw [newForward_real, h90, h0]; simp
  · rw [newRight_real 90 0 (by norm_num) (by norm_num), h90]; simp
  · rw [newUp_real 90 0 (by norm_num) (by norm_num), h90, h0]; simp

/-- C10 on the program: from the start-up state, a first click followed by a held call
with the cursor unmoved (zero cursor delta) keeps yaw 90 and pitch 0 and recomputes the
basis; `cameraForward` and `cameraUp` keep their start-up values, but `cameraRight` becomes
`(-1, 0, 0)` where the start-up value is `(1, 0, 0)`. -/
theorem startup_right_differs_from_recompute :
    (run realLibm (initialState { idleWindow (0 : ℝ) 0 with mouseButtonLeft := .press })
        [.input (1 / 60), .input (1 / 60)]).cameraYaw = 90
    ∧ (run realLibm (initialState { idleWindow (0 : ℝ) 0 with mouseButtonLeft := .press })
        [.input (1 / 60), .input (1 / 60)]).cameraPitch = 0
    ∧ (run realLibm (initialState { idleWindow (0 : ℝ) 0 with mouseButtonLeft := .press })
        [.input (1 / 60), .input (1 / 60)]).cameraForward = ⟨0, 0, 1⟩
    ∧ (run realLibm (initialState { idleWindow (0 : ℝ) 0 with mouseButtonLeft := .press })
        [.input (1 / 60), .input (1 / 60)]).cameraUp = ⟨0, 1, 0⟩
    ∧ (run realLibm (initialState { idleWindow (0 : ℝ) 0 with mouseButtonLeft := .press })
        [.input (1 / 60), .input (1 / 60)]).cameraRight = ⟨-1, 0, 0⟩
    ∧ (run realLibm (initialState { idleWindow (0 : ℝ) 0 with mouseButtonLeft := .press })
        [.input (1 / 60), .input (1 / 60)]).cameraRight
        ≠ (initialState
            { idleWindow (0 : ℝ) 0 with mouseButtonLeft := .press }).cameraRight := by
  obtain ⟨hF, hR, hU⟩ := basis_at_startup_angles
  have hrun :
      run realLibm (initialState { idleWindow (0 : ℝ) 0 with mouseButtonLeft := .press })
        [.input (1 / 60), .input (1 / 60)]
      = { heldState (0 : ℝ) 0 0 0 with
          cameraForward := newForward realLibm 90 0
          cameraRight := newRight realLibm (newForward realLibm 90 0)
          cameraUp := newUp realLibm (newRight realLibm (newForward realLibm 90 0))
            (newForward realLibm 90 0) } := by
    have hcl : clampPitch (0 : ℝ) = 0 := by norm_num [clampPitch]
    simp [run, step, ProcessInput, processKeys, keyEscapeStep, keyWStep, keySStep,
      keyAStep, keyDStep, keySpaceStep, keyLeftControlStep, processMouse, lookStep, hcl,
      initialState, idleWindow, heldState]
  rw [hrun]
  refine ⟨rfl, rfl, hF, hU, hR, ?_⟩
  show newRight realLibm (newForward realLibm 90 0) ≠ ⟨1, 0, 0⟩
  rw [hR]
  norm_num

end Basis

end Raymarcher
